import Mathlib

/-!
Verification of the concurrent local-network host discovery engine of
`src/backend/app.py` (Flask backend): the `/api/scan` endpoint built from
`ping_ip`, the inline coroutine `run_scan`, and `scan_network`.

The Python code is shallowly embedded as executable Lean definitions:

* Python `local_ip.split(".")` is embedded as `pySplitDot` (character-level
  recursion with the same semantics as `str.split(".")`, including the
  empty-field behaviour).
* Python `".".join(xs)` is embedded as `joinDot`.
* Python `str(i)` on a natural number (as used by the f-string
  `f"{base}{i}"`) is embedded as `natToStr`.
* The external subprocess world of `asyncio.create_subprocess_exec` is an
  explicit environment `ProbeEnv` mapping an argument vector to a
  `ProbeExec` outcome (an exception during spawn/await, or an exit with a
  return code and the contents of the discarded output streams).
* `asyncio.gather` resolves each probe task into its own outcome slot in an
  arbitrary completion order; this is made explicit by `fillSlots`/`gather`,
  which take the completion schedule as a parameter and only produce the
  response list once every one of the 254 tasks has completed.
* The event-loop environment of `asyncio.run` (and its `RuntimeError`
  fallback) is the `SchedulerOutcome` parameter; the Supabase persistence
  sink (`save_scan_to_supabase`) is a success/failure oracle `sinkOk`, and
  `saveLoop` embeds the single `try`-wrapped save loop of `scan_network`.
-/

set_option maxRecDepth 100000

namespace NetScan

/-- Decimal digit character, as produced by Python `str` formatting. -/
def digitChar : Nat → Char
  | 0 => '0'
  | 1 => '1'
  | 2 => '2'
  | 3 => '3'
  | 4 => '4'
  | 5 => '5'
  | 6 => '6'
  | 7 => '7'
  | 8 => '8'
  | _ => '9'

/-- Numeric value of a decimal digit character. -/
def digitVal (c : Char) : Nat := c.toNat - 48

/-- Accumulator worker for decimal rendering: prepends the decimal digits
of `n` (most significant first) to `acc`. Structural recursion on a fuel
counter (any fuel at least `n` gives all digits, since `n / 10 < n`). -/
def natToStrAux : Nat → Nat → List Char → List Char
  | 0, _, acc => acc
  | fuel+1, n, acc =>
      if n = 0 then acc
      else natToStrAux fuel (n / 10) (digitChar (n % 10) :: acc)

/-- Embedding of Python `str(n)` for a non-negative integer `n`, as used by
the f-string `f"{base}{i}"` in `run_scan`. -/
def natToStr (n : Nat) : String :=
  if n = 0 then "0" else String.mk (natToStrAux n n [])

/-- Left-to-right decimal parser worker. -/
def parseAux : List Char → Nat → Nat
  | [], v => v
  | c :: cs, v => parseAux cs (v * 10 + digitVal c)

/-- Decimal value of a digit string (observation function used to state the
claims about octet values and last-octet ordering). -/
def strToNat (s : String) : Nat := parseAux s.data 0

theorem digitVal_digitChar (d : Nat) (h : d < 10) : digitVal (digitChar d) = d := by
  interval_cases d <;> decide

theorem digitChar_ne_dot (d : Nat) : digitChar d ≠ '.' := by
  rcases d with _|_|_|_|_|_|_|_|_|d
  all_goals try decide
  show ('9' : Char) ≠ '.'
  decide

theorem natToStrAux_eq_append :
    ∀ fuel n acc, natToStrAux fuel n acc = natToStrAux fuel n [] ++ acc := by
  intro fuel
  induction fuel with
  | zero => intro n acc; simp [natToStrAux]
  | succ f ih =>
    intro n acc
    by_cases hn : n = 0
    · simp [natToStrAux, hn]
    · rw [natToStrAux, if_neg hn, ih (n / 10) (digitChar (n % 10) :: acc)]
      conv_rhs => rw [natToStrAux, if_neg hn, ih (n / 10) [digitChar (n % 10)]]
      simp

theorem parseAux_append (l₁ l₂ : List Char) :
    ∀ v, parseAux (l₁ ++ l₂) v = parseAux l₂ (parseAux l₁ v) := by
  induction l₁ with
  | nil => intro v; rfl
  | cons c cs ih => intro v; simp [parseAux, ih]

theorem natToStrAux_zero (fuel : Nat) : natToStrAux fuel 0 [] = [] := by
  cases fuel <;> simp [natToStrAux]

theorem parseAux_natToStrAux :
    ∀ fuel n, 0 < n → n ≤ fuel → parseAux (natToStrAux fuel n []) 0 = n := by
  intro fuel
  induction fuel with
  | zero => intro n hn hf; omega
  | succ f ih =>
    intro n hn hf
    have hne : ¬ (n = 0) := Nat.pos_iff_ne_zero.mp hn
    have hd : n % 10 < 10 := Nat.mod_lt _ (by decide)
    rw [natToStrAux, if_neg hne, natToStrAux_eq_append, parseAux_append]
    rcases Nat.eq_zero_or_pos (n / 10) with hq | hq
    · have hsmall : n < 10 := by
        rcases Nat.lt_or_ge n 10 with h | h
        · exact h
        · exact absurd hq (by have := Nat.div_le_div_right (c := 10) h; simp at this; omega)
      rw [hq, natToStrAux_zero]
      have h1 : n % 10 = n := Nat.mod_eq_of_lt hsmall
      simp [parseAux, h1, digitVal_digitChar _ hsmall]
    · have hlt : n / 10 < n := Nat.div_lt_self hn (by decide)
      rw [ih (n / 10) hq (by omega)]
      simp [parseAux, digitVal_digitChar _ hd]
      omega

theorem strToNat_natToStr (n : Nat) : strToNat (natToStr n) = n := by
  rcases Nat.eq_zero_or_pos n with h | h
  · subst h; decide
  · have hne : n ≠ 0 := Nat.pos_iff_ne_zero.mp h
    rw [natToStr, if_neg hne]
    show parseAux (natToStrAux n n []) 0 = n
    exact parseAux_natToStrAux n n h (Nat.le_refl n)

theorem natToStr_injective : Function.Injective natToStr := by
  intro a b h
  have := congrArg strToNat h
  rwa [strToNat_natToStr, strToNat_natToStr] at this

theorem natToStrAux_no_dot :
    ∀ fuel n acc, '.' ∉ acc → '.' ∉ natToStrAux fuel n acc := by
  intro fuel
  induction fuel with
  | zero => intro n acc hacc; simpa [natToStrAux] using hacc
  | succ f ih =>
    intro n acc hacc
    by_cases hn : n = 0
    · simpa [natToStrAux, hn] using hacc
    · rw [natToStrAux, if_neg hn]
      exact ih _ _ (by
        intro hmem
        rcases List.mem_cons.mp hmem with h | h
        · exact digitChar_ne_dot _ h.symm
        · exact hacc h)

theorem natToStr_no_dot (n : Nat) : '.' ∉ (natToStr n).data := by
  rcases Nat.eq_zero_or_pos n with h | h
  · subst h; decide
  · have hne : n ≠ 0 := Nat.pos_iff_ne_zero.mp h
    rw [natToStr, if_neg hne]
    exact natToStrAux_no_dot n n [] (by simp)

/-- Worker for `pySplitDot`: walks the character list, collecting the
current field in `acc` (reversed) and emitting a field at each dot. -/
def splitDotAux : List Char → List Char → List String
  | [], acc => [String.mk acc.reverse]
  | c :: cs, acc =>
      if c = '.' then String.mk acc.reverse :: splitDotAux cs []
      else splitDotAux cs (c :: acc)

/-- Embedding of Python `s.split(".")` (as used in
`local_ip.split(".")[:3]`): splits at every dot, keeping empty fields, and
returns `[""]` on the empty string. -/
def pySplitDot (s : String) : List String := splitDotAux s.data []

/-- Embedding of Python `".".join(xs)`. -/
def joinDot : List String → String
  | [] => ""
  | [p] => p
  | p :: q :: rest => p ++ "." ++ joinDot (q :: rest)

/-- Embedding of the base-derivation expression of `scan_network`:
`base = ".".join(local_ip.split(".")[:3]) + "."`. -/
def deriveBase (local_ip : String) : String :=
  joinDot ((pySplitDot local_ip).take 3) ++ "."

/-- The probe indices of `run_scan`: Python `range(1, 255)`. -/
def scanIndices : List Nat := List.range' 1 254

/-- The candidate addresses probed by `run_scan`: `f"{base}{i}"` for
`i in range(1, 255)`. -/
def candidates (local_ip : String) : List String :=
  scanIndices.map (fun i => deriveBase local_ip ++ natToStr i)

/-- Observation function for the claims: the numeric value of the last
dot-separated field of an address. -/
def lastOctet (a : String) : Nat := strToNat ((pySplitDot a).getLastD "")

/-- Validity predicate taken from the claims' words: a well-formed
dotted-quad IPv4 string has exactly four dot-separated fields, each a
non-empty digit string with value at most 255. -/
def isValidIPv4 (s : String) : Bool :=
  (pySplitDot s).length == 4 &&
    (pySplitDot s).all
      (fun p => p.length != 0 && p.data.all Char.isDigit && decide (strToNat p ≤ 255))

theorem splitDotAux_no_dot (l : List Char) (h : '.' ∉ l) :
    ∀ acc, splitDotAux l acc = [String.mk (acc.reverse ++ l)] := by
  induction l with
  | nil => intro acc; simp [splitDotAux]
  | cons c cs ih =>
    intro acc
    have hc : ¬ (c = '.') := fun hc => h (hc ▸ List.mem_cons_self c cs)
    rw [splitDotAux, if_neg hc, ih (fun hm => h (List.mem_cons_of_mem _ hm))]
    simp

theorem splitDotAux_dot_append (l₁ l₂ : List Char) (h : '.' ∉ l₁) :
    ∀ acc, splitDotAux (l₁ ++ '.' :: l₂) acc =
      String.mk (acc.reverse ++ l₁) :: splitDotAux l₂ [] := by
  induction l₁ with
  | nil => intro acc; simp [splitDotAux]
  | cons c cs ih =>
    intro acc
    have hc : ¬ (c = '.') := fun hc => h (hc ▸ List.mem_cons_self c cs)
    rw [List.cons_append, splitDotAux, if_neg hc,
      ih (fun hm => h (List.mem_cons_of_mem _ hm))]
    simp

theorem splitDotAux_elem_no_dot :
    ∀ (l acc : List Char), '.' ∉ acc →
      ∀ p ∈ splitDotAux l acc, '.' ∉ p.data := by
  intro l
  induction l with
  | nil =>
    intro acc hacc p hp
    rw [splitDotAux] at hp
    simp at hp
    subst hp
    simpa using hacc
  | cons c cs ih =>
    intro acc hacc p hp
    rw [splitDotAux] at hp
    by_cases hc : c = '.'
    · rw [if_pos hc] at hp
      rcases List.mem_cons.mp hp with h | h
      · subst h; simpa using hacc
      · exact ih [] (by simp) p h
    · rw [if_neg hc] at hp
      refine ih (c :: acc) ?_ p hp
      intro hm
      rcases List.mem_cons.mp hm with h | h
      · exact hc h.symm
      · exact hacc h

theorem pySplitDot_elem_no_dot (s : String) :
    ∀ p ∈ pySplitDot s, '.' ∉ p.data :=
  splitDotAux_elem_no_dot s.data [] (by simp)

theorem splitDotAux_ne_nil : ∀ (l acc : List Char), splitDotAux l acc ≠ [] := by
  intro l
  induction l with
  | nil => intro acc; simp [splitDotAux]
  | cons c cs ih =>
    intro acc
    rw [splitDotAux]
    by_cases hc : c = '.'
    · rw [if_pos hc]; simp
    · rw [if_neg hc]; exact ih _

theorem pySplitDot_ne_nil (s : String) : pySplitDot s ≠ [] :=
  splitDotAux_ne_nil s.data []

theorem string_append_assoc (a b c : String) : (a ++ b) ++ c = a ++ (b ++ c) := by
  cases a with
  | mk da =>
    cases b with
    | mk db =>
      cases c with
      | mk dc =>
        show String.mk ((da ++ db) ++ dc) = String.mk (da ++ (db ++ dc))
        rw [List.append_assoc]

theorem split_joinDot_append (fs : List String) (t : String)
    (hfs : fs ≠ []) (hnd : ∀ p ∈ fs, '.' ∉ p.data) (ht : '.' ∉ t.data) :
    pySplitDot (joinDot fs ++ "." ++ t) = fs ++ [t] := by
  induction fs with
  | nil => exact absurd rfl hfs
  | cons p rest ih =>
    cases rest with
    | nil =>
      show splitDotAux ((p ++ "." ++ t)).data [] = [p, t]
      rw [String.data_append, String.data_append]
      have hdot : ("." : String).data = ['.'] := rfl
      rw [hdot]
      rw [List.append_assoc]
      show splitDotAux (p.data ++ '.' :: t.data) [] = [p, t]
      rw [splitDotAux_dot_append p.data t.data (hnd p (by simp)) []]
      rw [splitDotAux_no_dot t.data ht []]
      simp
    | cons q rest2 =>
      have hj : joinDot (p :: q :: rest2) = p ++ "." ++ joinDot (q :: rest2) := rfl
      rw [hj]
      have hassoc : p ++ "." ++ joinDot (q :: rest2) ++ "." ++ t =
          (p ++ ".") ++ (joinDot (q :: rest2) ++ "." ++ t) := by
        rw [string_append_assoc (p ++ ".") (joinDot (q :: rest2)) ".",
          string_append_assoc (p ++ ".") (joinDot (q :: rest2) ++ ".") t]
      rw [hassoc]
      show splitDotAux (((p ++ ".") ++ (joinDot (q :: rest2) ++ "." ++ t))).data [] = _
      rw [String.data_append, String.data_append]
      have hdot : ("." : String).data = ['.'] := rfl
      rw [hdot, List.append_assoc]
      show splitDotAux (p.data ++ '.' :: (joinDot (q :: rest2) ++ "." ++ t).data) [] = _
      rw [splitDotAux_dot_append p.data _ (hnd p (by simp)) []]
      have hrec : splitDotAux ((joinDot (q :: rest2) ++ "." ++ t)).data [] =
          (q :: rest2) ++ [t] :=
        ih (by simp) (fun x hx => hnd x (List.mem_cons_of_mem _ hx))
      rw [hrec]
      simp

theorem take3_ne_nil (s : String) : (pySplitDot s).take 3 ≠ [] := by
  have h := pySplitDot_ne_nil s
  cases hp : pySplitDot s with
  | nil => exact absurd hp h
  | cons a l => simp

theorem take3_no_dot (s : String) :
    ∀ p ∈ (pySplitDot s).take 3, '.' ∉ p.data := by
  intro p hp
  exact pySplitDot_elem_no_dot s p (List.take_subset 3 _ hp)

theorem pySplitDot_candidate (s : String) (i : Nat) :
    pySplitDot (deriveBase s ++ natToStr i) =
      (pySplitDot s).take 3 ++ [natToStr i] := by
  have h1 : deriveBase s ++ natToStr i =
      joinDot ((pySplitDot s).take 3) ++ "." ++ natToStr i := by
    rw [deriveBase]
  rw [h1]
  exact split_joinDot_append _ _ (take3_ne_nil s) (take3_no_dot s) (natToStr_no_dot i)

theorem lastOctet_candidate (s : String) (i : Nat) :
    lastOctet (deriveBase s ++ natToStr i) = i := by
  rw [lastOctet, pySplitDot_candidate, List.getLastD_concat, strToNat_natToStr]

theorem candidate_inj (s : String) {i j : Nat}
    (h : deriveBase s ++ natToStr i = deriveBase s ++ natToStr j) : i = j := by
  have := congrArg lastOctet h
  rwa [lastOctet_candidate, lastOctet_candidate] at this

/-- Outcome of one external probe-process invocation
(`asyncio.create_subprocess_exec` + `proc.communicate()`): either an
exception was raised while spawning or awaiting the process, or the process
exited with a return code; the exited form also records the contents of the
process's output streams, which the code redirects to `DEVNULL`. -/
inductive ProbeExec where
  | raised : ProbeExec
  | exited (returncode : Int) (stdoutData stderrData : String) : ProbeExec
deriving DecidableEq

/-- The external process environment: what happens when a given argument
vector is executed as a subprocess. -/
structure ProbeEnv where
  exec : List String → ProbeExec

/-- The argument vector of the probe process spawned by `ping_ip`:
`"ping", param, "1", "-w", "500", ip`. -/
def pingArgs (ip param : String) : List String :=
  ["ping", param, "1", "-w", "500", ip]

/-- Embedding of `ping_ip`: spawn the probe process with discarded output
streams, await it, and report `returncode == 0`; any exception in the
`try` block yields `False`. -/
def ping_ip (ip param : String) (env : ProbeEnv) : Bool :=
  match env.exec (pingArgs ip param) with
  | ProbeExec.raised => false
  | ProbeExec.exited rc _ _ => rc == 0

/-- Embedding of Python `s.lower()` (ASCII case folding). -/
def pyLower (s : String) : String := String.mk (s.data.map Char.toLower)

/-- Embedding of the platform-flag selection of `scan_network`:
`param = "-n" if platform.system().lower() == "windows" else "-c"`. -/
def probeParam (platformSystem : String) : String :=
  if pyLower platformSystem = "windows" then "-n" else "-c"

/-- One entry of `results["devices"]`: `{"ip": ip, "status": "alive"}`. -/
structure Device where
  ip : String
  status : String
deriving DecidableEq

/-- Slot-filling semantics of `asyncio.gather`: tasks complete in the order
given by the schedule, and each completing task `i` writes its own outcome
into slot `i`. -/
def fillSlots (outcome : Nat → Bool) : List Nat → (Nat → Option Bool) → Nat → Option Bool
  | [], slots => slots
  | i :: rest, slots =>
      fillSlots outcome rest (fun j => if j = i then some (outcome i) else slots j)

/-- `asyncio.gather(*tasks)` for the 254 probe tasks: the response list, in
task order, is available only once every task's slot has been filled by the
completion schedule; otherwise the await does not resolve (`none`). -/
def gather (outcome : Nat → Bool) (schedule : List Nat) : Option (List Bool) :=
  scanIndices.mapM (fillSlots outcome schedule (fun _ => none))

/-- Embedding of the inline coroutine `run_scan` of `scan_network`: build
one `ping_ip` task per `i in range(1, 255)`, gather them, and append a
device entry for every index whose response is alive, in enumeration
order. -/
def run_scan (base param : String) (env : ProbeEnv) (schedule : List Nat) :
    Option (List Device) :=
  match gather (fun i => ping_ip (base ++ natToStr i) param env) schedule with
  | none => none
  | some responses =>
      some (((scanIndices.zip responses).filter (fun p => p.2)).map
        (fun p => ⟨base ++ natToStr p.1, "alive"⟩))

/-- The scan-level error surfaced to the caller as a 500-class response
(`return jsonify({"error": str(e)}), 500`), the spec's
`ScanExecutionError`. -/
inductive ScanError where
  | scanExecutionError (msg : String) : ScanError
deriving DecidableEq

/-- Behaviour of the event-loop environment around the fan-out:
`ok` models `asyncio.run` succeeding; `fallbackOk` models `asyncio.run`
raising `RuntimeError` before the coroutine starts (as when called from a
running event loop) and the `loop.run_until_complete` fallback succeeding;
`failure` models the environment being unable to execute the fan-out
(either a non-`RuntimeError` exception from `asyncio.run`, handled by the
`except Exception` clause, or the fallback path itself failing). -/
inductive SchedulerOutcome where
  | ok : SchedulerOutcome
  | fallbackOk : SchedulerOutcome
  | failure (msg : String) : SchedulerOutcome

/-- The JSON scan report returned by `scan_network`:
`{"local_ip": ..., "devices": [...], "timestamp": ...}` (the timestamp is
an abstract clock reading). -/
structure ScanReport where
  local_ip : String
  devices : List Device
  timestamp : Nat
deriving DecidableEq

/-- Embedding of the persistence step of `scan_network`: a single `try`
block wraps the loop `for d in results["devices"]: save_scan_to_supabase(...)`,
so the first failing save aborts the remaining iterations (the exception is
caught and logged outside the loop). Returns the addresses for which a save
was attempted. -/
def saveLoop (sinkOk : String → Bool) : List Device → List String
  | [] => []
  | d :: rest => if sinkOk d.ip then d.ip :: saveLoop sinkOk rest else [d.ip]

/-- The successful-fan-out tail of `scan_network`: run the inline
coroutine, then the persistence loop, then stamp and return the report. -/
def scanCompleted (resolved : Option String) (platformSystem : String)
    (env : ProbeEnv) (schedule : List Nat) (sinkOk : String → Bool) (now : Nat) :
    Option (Except ScanError (ScanReport × List String)) :=
  match run_scan (deriveBase ((resolved).getD "127.0.0.1"))
      (probeParam platformSystem) env schedule with
  | none => none
  | some devices =>
      some (Except.ok
        (⟨(resolved).getD "127.0.0.1", devices, now⟩, saveLoop sinkOk devices))

/-- Embedding of the `/api/scan` handler `scan_network`. Inputs: the result
of the `socket.gethostbyname` self-lookup (`none` when it raises, in which
case the code falls back to `"127.0.0.1"`), the platform name, the probe
environment, the event-loop environment, the completion schedule of the
254 probe tasks, the persistence sink's success oracle, and the clock.
Output: `none` when the fan-out never resolves, otherwise the error
response or the report together with the trace of attempted saves. The
`ok` and `fallbackOk` arms run the same fan-out (`asyncio.run` versus the
`loop.run_until_complete` fallback after a `RuntimeError`). -/
def scan_network (resolved : Option String) (platformSystem : String)
    (env : ProbeEnv) (sched : SchedulerOutcome) (schedule : List Nat)
    (sinkOk : String → Bool) (now : Nat) :
    Option (Except ScanError (ScanReport × List String)) :=
  match sched with
  | SchedulerOutcome.failure msg =>
      some (Except.error (ScanError.scanExecutionError msg))
  | SchedulerOutcome.ok =>
      scanCompleted resolved platformSystem env schedule sinkOk now
  | SchedulerOutcome.fallbackOk =>
      scanCompleted resolved platformSystem env schedule sinkOk now

/-- The device list of a completed scan, as a function of the full outcome
vector: the alive candidates in ascending index order. -/
def devicesOf (base param : String) (env : ProbeEnv) : List Device :=
  (scanIndices.filter (fun i => ping_ip (base ++ natToStr i) param env)).map
    (fun i => ⟨base ++ natToStr i, "alive"⟩)

theorem fillSlots_not_mem (outcome : Nat → Bool) {i : Nat} :
    ∀ (sched : List Nat) (slots : Nat → Option Bool), i ∉ sched →
      fillSlots outcome sched slots i = slots i := by
  intro sched
  induction sched with
  | nil => intro slots _; rfl
  | cons j rest ih =>
    intro slots hni
    have hij : i ≠ j := fun h => hni (h ▸ List.mem_cons_self j rest)
    have hnr : i ∉ rest := fun h => hni (List.mem_cons_of_mem _ h)
    rw [fillSlots, ih _ hnr, if_neg hij]

theorem fillSlots_mem (outcome : Nat → Bool) {i : Nat} :
    ∀ (sched : List Nat) (slots : Nat → Option Bool), i ∈ sched →
      fillSlots outcome sched slots i = some (outcome i) := by
  intro sched
  induction sched with
  | nil => intro slots h; simp at h
  | cons j rest ih =>
    intro slots hi
    rw [fillSlots]
    by_cases hr : i ∈ rest
    · exact ih _ hr
    · have hij : i = j := by
        rcases List.mem_cons.mp hi with h | h
        · exact h
        · exact absurd h hr
      rw [fillSlots_not_mem outcome rest _ hr, if_pos hij, hij]

theorem mapM_of_eq_some {g : Nat → Option Bool} {f : Nat → Bool} :
    ∀ (l : List Nat), (∀ i ∈ l, g i = some (f i)) → l.mapM g = some (l.map f) := by
  intro l
  induction l with
  | nil => intro _; rfl
  | cons a rest ih =>
    intro h
    rw [List.mapM_cons, h a (List.mem_cons_self a rest),
      ih (fun i hi => h i (List.mem_cons_of_mem _ hi))]
    rfl

theorem gather_complete (outcome : Nat → Bool) {schedule : List Nat}
    (h : schedule.Perm scanIndices) :
    gather outcome schedule = some (scanIndices.map outcome) := by
  refine mapM_of_eq_some scanIndices (fun i hi => ?_)
  exact fillSlots_mem outcome schedule _ (h.symm.subset hi)

theorem zip_filter_map_eq (f : Nat → Bool) (g : Nat → Device) :
    ∀ (l : List Nat),
      ((l.zip (l.map f)).filter (fun p => p.2)).map (fun p => g p.1) =
        (l.filter f).map g := by
  intro l
  induction l with
  | nil => rfl
  | cons a rest ih =>
    rw [List.map_cons, List.zip_cons_cons]
    by_cases hf : f a
    · rw [List.filter_cons_of_pos (by simpa using hf), List.map_cons, ih,
        List.filter_cons_of_pos (by simpa using hf), List.map_cons]
    · rw [List.filter_cons_of_neg (by simpa using hf), ih,
        List.filter_cons_of_neg (by simpa using hf)]

theorem run_scan_complete (base param : String) (env : ProbeEnv)
    {schedule : List Nat} (h : schedule.Perm scanIndices) :
    run_scan base param env schedule = some (devicesOf base param env) := by
  rw [run_scan, gather_complete _ h]
  rw [devicesOf, ← zip_filter_map_eq]

theorem scan_network_ok (resolved : Option String) (plat : String)
    (env : ProbeEnv) {schedule : List Nat} (sinkOk : String → Bool) (now : Nat)
    (h : schedule.Perm scanIndices) (sched : SchedulerOutcome)
    (hs : sched = SchedulerOutcome.ok ∨ sched = SchedulerOutcome.fallbackOk) :
    scan_network resolved plat env sched schedule sinkOk now =
      some (Except.ok
        (⟨resolved.getD "127.0.0.1",
          devicesOf (deriveBase (resolved.getD "127.0.0.1")) (probeParam plat) env,
          now⟩,
         saveLoop sinkOk
           (devicesOf (deriveBase (resolved.getD "127.0.0.1")) (probeParam plat) env))) := by
  rcases hs with hs | hs <;> subst hs <;>
    rw [scan_network, scanCompleted, run_scan_complete _ _ _ h]

theorem scanIndices_nodup : scanIndices.Nodup := List.nodup_range' 1 254

theorem scanIndices_length : scanIndices.length = 254 := List.length_range' 1 1 254

theorem mem_scanIndices {i : Nat} : i ∈ scanIndices ↔ 1 ≤ i ∧ i ≤ 254 := by
  rw [scanIndices, List.mem_range'_1]
  omega

theorem devicesOf_map_ip (base param : String) (env : ProbeEnv) :
    (devicesOf base param env).map Device.ip =
      (scanIndices.filter (fun i => ping_ip (base ++ natToStr i) param env)).map
        (fun i => base ++ natToStr i) := by
  rw [devicesOf, List.map_map]
  rfl

theorem devicesOf_length_le (base param : String) (env : ProbeEnv) :
    (devicesOf base param env).length ≤ 254 := by
  rw [devicesOf, List.length_map]
  calc (scanIndices.filter _).length ≤ scanIndices.length :=
        List.length_filter_le _ _
    _ = 254 := scanIndices_length

theorem devicesOf_ip_nodup (s param : String) (env : ProbeEnv) :
    ((devicesOf (deriveBase s) param env).map Device.ip).Nodup := by
  rw [devicesOf_map_ip]
  refine List.Nodup.map_on ?_ (scanIndices_nodup.filter _)
  intro x _ y _ hxy
  exact candidate_inj s hxy

theorem devicesOf_shape (s param : String) (env : ProbeEnv) :
    ∀ d ∈ devicesOf (deriveBase s) param env,
      ∃ i, 1 ≤ i ∧ i ≤ 254 ∧ d.ip = deriveBase s ++ natToStr i ∧
        d.status = "alive" := by
  intro d hd
  rw [devicesOf] at hd
  rcases List.mem_map.mp hd with ⟨i, hi, hdi⟩
  have hmem : i ∈ scanIndices := List.mem_of_mem_filter hi
  rcases mem_scanIndices.mp hmem with ⟨h1, h2⟩
  exact ⟨i, h1, h2, by rw [← hdi], by rw [← hdi]⟩

theorem devicesOf_mem_iff (s param : String) (env : ProbeEnv) {i : Nat}
    (h1 : 1 ≤ i) (h2 : i ≤ 254) :
    (deriveBase s ++ natToStr i) ∈
        (devicesOf (deriveBase s) param env).map Device.ip ↔
      ping_ip (deriveBase s ++ natToStr i) param env = true := by
  rw [devicesOf_map_ip]
  constructor
  · intro hm
    rcases List.mem_map.mp hm with ⟨j, hj, hji⟩
    rcases List.mem_filter.mp hj with ⟨_, hping⟩
    have : j = i := candidate_inj s hji
    subst this
    exact hping
  · intro hp
    refine List.mem_map.mpr ⟨i, List.mem_filter.mpr ⟨mem_scanIndices.mpr ⟨h1, h2⟩, hp⟩, rfl⟩

theorem scanIndices_pairwise : scanIndices.Pairwise (· < ·) := by
  have h : ∀ n s, (List.range' s n).Pairwise (· < ·) := by
    intro n
    induction n with
    | zero => intro s; simp
    | succ m ih =>
      intro s
      rw [List.range'_succ]
      refine List.Pairwise.cons ?_ (ih (s + 1))
      intro b hb
      have := (List.mem_range'_1.mp hb).1
      omega
  exact h 254 1

theorem devicesOf_map_lastOctet (s param : String) (env : ProbeEnv) :
    ((devicesOf (deriveBase s) param env).map Device.ip).map lastOctet =
      scanIndices.filter (fun i => ping_ip (deriveBase s ++ natToStr i) param env) := by
  rw [devicesOf_map_ip, List.map_map]
  have hcomp : (lastOctet ∘ fun i => deriveBase s ++ natToStr i) =
      fun i => lastOctet (deriveBase s ++ natToStr i) := rfl
  rw [hcomp]
  calc (scanIndices.filter _).map (fun i => lastOctet (deriveBase s ++ natToStr i)) =
        (scanIndices.filter _).map (fun i => i) := by
          refine List.map_congr_left (fun i _ => ?_)
          exact lastOctet_candidate s i
    _ = scanIndices.filter _ := List.map_id _

theorem devicesOf_sorted (s param : String) (env : ProbeEnv) :
    List.Sorted (· < ·)
      (((devicesOf (deriveBase s) param env).map Device.ip).map lastOctet) := by
  rw [devicesOf_map_lastOctet]
  exact scanIndices_pairwise.filter _

theorem saveLoop_subset_ips (sinkOk : String → Bool) :
    ∀ (devs : List Device), ∀ a ∈ saveLoop sinkOk devs, a ∈ devs.map Device.ip := by
  intro devs
  induction devs with
  | nil => intro a ha; simp [saveLoop] at ha
  | cons d rest ih =>
    intro a ha
    rw [saveLoop] at ha
    by_cases hs : sinkOk d.ip
    · rw [if_pos hs] at ha
      rcases List.mem_cons.mp ha with h | h
      · exact h ▸ List.mem_map.mpr ⟨d, List.mem_cons_self d rest, rfl⟩
      · exact List.mem_cons_of_mem _ (ih a h)
    · rw [if_neg hs] at ha
      rcases List.mem_cons.mp ha with h | h
      · exact h ▸ List.mem_map.mpr ⟨d, List.mem_cons_self d rest, rfl⟩
      · simp at h

instance {e a : Type} [DecidableEq e] [DecidableEq a] : DecidableEq (Except e a) := fun x y =>
  match x, y with
  | Except.ok u, Except.ok v =>
      if h : u = v then isTrue (by rw [h])
      else isFalse (fun hc => by cases hc; exact h rfl)
  | Except.error u, Except.error v =>
      if h : u = v then isTrue (by rw [h])
      else isFalse (fun hc => by cases hc; exact h rfl)
  | Except.ok _, Except.error _ => isFalse (fun hc => by cases hc)
  | Except.error _, Except.ok _ => isFalse (fun hc => by cases hc)

/-- Test fixture: a probe environment in which every probe process exits
with status 1 (no host answers). -/
def envAllDead : ProbeEnv := ⟨fun _ => ProbeExec.exited 1 "" ""⟩

/-- Test fixture: a probe environment in which exactly the ping targets
`10.0.0.1` and `10.0.0.2` answer (exit status 0) and everything else exits
with status 1. The target address is the last probe-process argument. -/
def envTwoAlive : ProbeEnv :=
  ⟨fun args =>
    if args.getLastD "" == "10.0.0.1" || args.getLastD "" == "10.0.0.2" then
      ProbeExec.exited 0 "" ""
    else ProbeExec.exited 1 "" ""⟩

/-- Helper: the candidate list always has exactly 254 entries, whatever
the input string. -/
theorem candidates_length (s : String) : (candidates s).length = 254 := by
  rw [candidates, List.length_map, scanIndices_length]

/-- Helper: every candidate is `base ++ str(i)` for some `1 ≤ i ≤ 254`. -/
theorem candidates_shape (s : String) :
    ∀ a ∈ candidates s, ∃ i, 1 ≤ i ∧ i ≤ 254 ∧ a = deriveBase s ++ natToStr i := by
  intro a ha
  rcases List.mem_map.mp ha with ⟨i, hi, hai⟩
  rcases mem_scanIndices.mp hi with ⟨h1, h2⟩
  exact ⟨i, h1, h2, hai.symm⟩

/-- Claim C1: for every valid local IPv4 address string, the address-range
derivation produces exactly the 254 candidate addresses base.1 through
base.254 — 254 of them, unique, all sharing the input's first three
octets, with last octets exactly 1..254 in ascending order. -/
theorem c1_address_range_derivation (s : String) (h : isValidIPv4 s = true) :
    (candidates s).length = 254 ∧
    (candidates s).Nodup ∧
    (∀ a ∈ candidates s, (pySplitDot a).take 3 = (pySplitDot s).take 3) ∧
    (candidates s).map lastOctet = scanIndices := by
  have hlen : (pySplitDot s).length = 4 := by
    rw [isValidIPv4, Bool.and_eq_true] at h
    have := h.1
    simpa using this
  refine ⟨candidates_length s, ?_, ?_, ?_⟩
  · refine List.Nodup.map_on ?_ scanIndices_nodup
    intro x _ y _ hxy
    exact candidate_inj s hxy
  · intro a ha
    rcases candidates_shape s a ha with ⟨i, _, _, hai⟩
    subst hai
    rw [pySplitDot_candidate]
    have hfs : ((pySplitDot s).take 3).length = 3 := by
      rw [List.length_take, hlen]
      omega
    rw [List.take_append_of_le_length (by omega), List.take_take]
    simp
  · rw [candidates, List.map_map]
    have hcomp : (lastOctet ∘ fun i => deriveBase s ++ natToStr i) =
        fun i => lastOctet (deriveBase s ++ natToStr i) := rfl
    rw [hcomp]
    calc scanIndices.map (fun i => lastOctet (deriveBase s ++ natToStr i)) =
          scanIndices.map (fun i => i) :=
            List.map_congr_left (fun i _ => lastOctet_candidate s i)
      _ = scanIndices := List.map_id _

/-- Witness for C1 at the concrete valid address `192.168.1.10`. -/
theorem c1_address_range_derivation_witness :
    isValidIPv4 "192.168.1.10" = true ∧
    (candidates "192.168.1.10").map lastOctet = scanIndices :=
  ⟨by decide, (c1_address_range_derivation "192.168.1.10" (by decide)).2.2.2⟩

/-- Claim C3: the liveness probe never propagates an exception: a raised
exception (unreachability handling, launch failure, timeout) yields
`alive = false`, aliveness holds exactly when the exit status is 0, and
the result depends only on the exit status, never on the contents of the
discarded output streams. -/
theorem c3_probe_absorbs_faults (ip param : String) (env : ProbeEnv) :
    (env.exec (pingArgs ip param) = ProbeExec.raised → ping_ip ip param env = false) ∧
    (∀ rc out err, env.exec (pingArgs ip param) = ProbeExec.exited rc out err →
      (ping_ip ip param env = true ↔ rc = 0)) ∧
    (∀ rc out err, env.exec (pingArgs ip param) = ProbeExec.exited rc out err →
      rc ≠ 0 → ping_ip ip param env = false) ∧
    (∀ rc out1 err1 out2 err2 (env2 : ProbeEnv),
      env.exec (pingArgs ip param) = ProbeExec.exited rc out1 err1 →
      env2.exec (pingArgs ip param) = ProbeExec.exited rc out2 err2 →
      ping_ip ip param env = ping_ip ip param env2) := by
  refine ⟨?_, ?_, ?_, ?_⟩
  · intro h
    rw [ping_ip, h]
  · intro rc out err h
    rw [ping_ip, h]
    simp
  · intro rc out err h hrc
    rw [ping_ip, h]
    simpa using hrc
  · intro rc out1 err1 out2 err2 env2 h1 h2
    rw [ping_ip, h1, ping_ip, h2]

/-- Witness for C3: with every probe process exiting with status 1, the
probe reports alive only if 1 = 0. -/
theorem c3_probe_absorbs_faults_witness :
    ping_ip "192.168.1.1" "-c" envAllDead = true ↔ (1 : Int) = 0 :=
  (c3_probe_absorbs_faults "192.168.1.1" "-c" envAllDead).2.1 1 "" "" rfl

/-- Counterexample to C5: on the malformed inputs named by the claim the
derivation does not fail — there is no `InvalidAddressError` anywhere in
the code — it returns an ordinary base and a full 254-candidate list. -/
theorem c5_counterexample :
    isValidIPv4 "abc" = false ∧
    deriveBase "abc" = "abc." ∧ (candidates "abc").length = 254 ∧
    isValidIPv4 "1.2.3" = false ∧
    deriveBase "1.2.3" = "1.2.3." ∧ (candidates "1.2.3").length = 254 ∧
    isValidIPv4 "999.1.1.1" = false ∧
    deriveBase "999.1.1.1" = "999.1.1." ∧ (candidates "999.1.1.1").length = 254 := by
  refine ⟨by decide, by decide, candidates_length _, by decide, by decide,
    candidates_length _, by decide, by decide, candidates_length _⟩

/-- Amended C5: the derivation performs no validation at all: for every
input string, malformed ones included, it returns a 254-candidate list over
the rejoined first up-to-three dot-separated fields, and on the claim's
example inputs the first candidates are `abc.1`, `1.2.3.1` and
`999.1.1.1`. -/
theorem c5_no_invalid_address_error :
    (∀ s : String, (candidates s).length = 254) ∧
    (candidates "abc").getD 0 "" = "abc.1" ∧
    (candidates "1.2.3").getD 0 "" = "1.2.3.1" ∧
    (candidates "999.1.1.1").getD 0 "" = "999.1.1.1" :=
  ⟨candidates_length, by decide, by decide, by decide⟩

/-- Claim C8: the probe invocation on a POSIX platform is
`ping -c 1 -w 500 <ip>` and on Windows `ping -n 1 -w 500 <ip>` — a single
probe packet with the literal timeout argument 500 in both cases. POSIX
`ping` reads `-w 500` as a 500-second deadline, not the 500 ms upper bound
the claim (and the code's own comment) states; only Windows reads `-w` in
milliseconds. -/
theorem c8_probe_arguments :
    probeParam "Linux" = "-c" ∧
    pingArgs "192.168.1.1" (probeParam "Linux") =
      ["ping", "-c", "1", "-w", "500", "192.168.1.1"] ∧
    probeParam "Windows" = "-n" ∧
    pingArgs "192.168.1.1" (probeParam "Windows") =
      ["ping", "-n", "1", "-w", "500", "192.168.1.1"] := by
  refine ⟨by decide, by decide, by decide, by decide⟩

/-- Claim C10: subnet-base derivation and candidate generation are total
over all input strings: every input, malformed ones included, yields a
254-element candidate list, each entry being the derived base followed by
a last octet between 1 and 254. -/
theorem c10_derivation_total (s : String) :
    (candidates s).length = 254 ∧
    ∀ a ∈ candidates s, ∃ i, 1 ≤ i ∧ i ≤ 254 ∧ a = deriveBase s ++ natToStr i :=
  ⟨candidates_length s, candidates_shape s⟩

/-- Witness for C10 at the malformed input `abc` and the candidate
`abc.42`. -/
theorem c10_derivation_total_witness :
    (candidates "abc").length = 254 ∧
    ∃ i, 1 ≤ i ∧ i ≤ 254 ∧ "abc.42" = deriveBase "abc" ++ natToStr i :=
  ⟨(c10_derivation_total "abc").1, (c10_derivation_total "abc").2 "abc.42" (by decide)⟩

/-- Claim C2: once every one of the 254 probe outcomes has resolved (the
schedule is a permutation of the task indices), the caller receives either
a complete, well-formed report — the devices reflect the outcome of all
254 probes — or, when the environment cannot run the fan-out, the single
scan-level error; never a partial report. -/
theorem c2_complete_report_or_error (resolved : Option String) (plat : String)
    (env : ProbeEnv) (schedule : List Nat) (sinkOk : String → Bool) (now : Nat)
    (hp : schedule.Perm scanIndices) :
    (∀ msg, scan_network resolved plat env (SchedulerOutcome.failure msg)
        schedule sinkOk now =
      some (Except.error (ScanError.scanExecutionError msg))) ∧
    (∀ sched, sched = SchedulerOutcome.ok ∨ sched = SchedulerOutcome.fallbackOk →
      ∃ r attempts,
        scan_network resolved plat env sched schedule sinkOk now =
          some (Except.ok (r, attempts)) ∧
        r.local_ip = resolved.getD "127.0.0.1" ∧
        r.timestamp = now ∧
        (∀ d ∈ r.devices, d.status = "alive") ∧
        (∀ i, 1 ≤ i → i ≤ 254 →
          ((deriveBase (resolved.getD "127.0.0.1") ++ natToStr i) ∈
              r.devices.map Device.ip ↔
            ping_ip (deriveBase (resolved.getD "127.0.0.1") ++ natToStr i)
              (probeParam plat) env = true))) := by
  constructor
  · intro msg
    rfl
  · intro sched hs
    refine ⟨_, _, scan_network_ok resolved plat env sinkOk now hp sched hs, rfl, rfl, ?_, ?_⟩
    · intro d hd
      exact (devicesOf_shape _ _ _ d hd).choose_spec.2.2.2
    · intro i h1 h2
      exact devicesOf_mem_iff (resolved.getD "127.0.0.1") (probeParam plat) env h1 h2

/-- Witness for C2: concrete error case and concrete completed case. -/
theorem c2_complete_report_or_error_witness :
    scan_network (some "192.168.1.10") "Linux" envAllDead
        (SchedulerOutcome.failure "no scheduling context") scanIndices
        (fun _ => true) 0 =
      some (Except.error (ScanError.scanExecutionError "no scheduling context")) ∧
    ∃ r attempts,
      scan_network (some "192.168.1.10") "Linux" envAllDead SchedulerOutcome.ok
          scanIndices (fun _ => true) 0 =
        some (Except.ok (r, attempts)) ∧
      r.local_ip = "192.168.1.10" ∧ r.timestamp = 0 := by
  constructor
  · exact (c2_complete_report_or_error (some "192.168.1.10") "Linux" envAllDead
      scanIndices (fun _ => true) 0 (List.Perm.refl scanIndices)).1 "no scheduling context"
  · obtain ⟨r, attempts, h1, h2, h3, _, _⟩ :=
      (c2_complete_report_or_error (some "192.168.1.10") "Linux" envAllDead
        scanIndices (fun _ => true) 0 (List.Perm.refl scanIndices)).2
        SchedulerOutcome.ok (Or.inl rfl)
    exact ⟨r, attempts, h1, h2, h3⟩

/-- Claim C4: with a fixed deterministic probe environment the report is
independent of the completion order of the probe tasks — any two schedules
that complete all 254 tasks yield identical results — and the devices
sequence is in strictly ascending last-octet order. -/
theorem c4_deterministic_ascending (resolved : Option String) (plat : String)
    (env : ProbeEnv) (sinkOk : String → Bool) (now : Nat) (sch1 sch2 : List Nat)
    (h1 : sch1.Perm scanIndices) (h2 : sch2.Perm scanIndices) :
    scan_network resolved plat env SchedulerOutcome.ok sch1 sinkOk now =
      scan_network resolved plat env SchedulerOutcome.ok sch2 sinkOk now ∧
    ∀ r attempts,
      scan_network resolved plat env SchedulerOutcome.ok sch1 sinkOk now =
        some (Except.ok (r, attempts)) →
      List.Sorted (· < ·) ((r.devices.map Device.ip).map lastOctet) := by
  constructor
  · rw [scan_network_ok resolved plat env sinkOk now h1 _ (Or.inl rfl),
      scan_network_ok resolved plat env sinkOk now h2 _ (Or.inl rfl)]
  · intro r attempts h
    rw [scan_network_ok resolved plat env sinkOk now h1 _ (Or.inl rfl)] at h
    simp only [Option.some.injEq, Except.ok.injEq, Prod.mk.injEq] at h
    have hr : r.devices =
        devicesOf (deriveBase (resolved.getD "127.0.0.1")) (probeParam plat) env := by
      rw [← h.1]
    rw [hr]
    exact devicesOf_sorted _ _ _

/-- Witness for C4: identity schedule versus reversed schedule. -/
theorem c4_deterministic_ascending_witness :
    scan_network (some "192.168.1.10") "Linux" envAllDead SchedulerOutcome.ok
        scanIndices (fun _ => true) 0 =
      scan_network (some "192.168.1.10") "Linux" envAllDead SchedulerOutcome.ok
        scanIndices.reverse (fun _ => true) 0 :=
  (c4_deterministic_ascending (some "192.168.1.10") "Linux" envAllDead
    (fun _ => true) 0 scanIndices scanIndices.reverse (List.Perm.refl scanIndices)
    (List.reverse_perm scanIndices)).1

/-- Claim C6: when self-resolution of the local IP fails, the scan falls
back to the loopback address: the report's `local_ip` is `127.0.0.1` and
every reported device lies in the `127.0.0.*` candidate set. -/
theorem c6_loopback_fallback (plat : String) (env : ProbeEnv)
    (schedule : List Nat) (sinkOk : String → Bool) (now : Nat)
    (hp : schedule.Perm scanIndices) (sched : SchedulerOutcome)
    (hs : sched = SchedulerOutcome.ok ∨ sched = SchedulerOutcome.fallbackOk) :
    ∃ r attempts,
      scan_network none plat env sched schedule sinkOk now =
        some (Except.ok (r, attempts)) ∧
      r.local_ip = "127.0.0.1" ∧
      (∀ d ∈ r.devices, ∃ i, 1 ≤ i ∧ i ≤ 254 ∧ d.ip = "127.0.0." ++ natToStr i) := by
  refine ⟨_, _, scan_network_ok none plat env sinkOk now hp sched hs, rfl, ?_⟩
  intro d hd
  have hbase : deriveBase ((none : Option String).getD "127.0.0.1") = "127.0.0." := by decide
  rcases devicesOf_shape ((none : Option String).getD "127.0.0.1") (probeParam plat) env d
    (by rw [hbase] at hd ⊢; exact hd) with ⟨i, hi1, hi2, hip, _⟩
  rw [hbase] at hip
  exact ⟨i, hi1, hi2, hip⟩

/-- Witness for C6 with a concrete all-dead probe environment. -/
theorem c6_loopback_fallback_witness :
    ∃ r attempts,
      scan_network none "Linux" envAllDead SchedulerOutcome.ok scanIndices
          (fun _ => true) 0 =
        some (Except.ok (r, attempts)) ∧
      r.local_ip = "127.0.0.1" ∧
      (∀ d ∈ r.devices, ∃ i, 1 ≤ i ∧ i ≤ 254 ∧ d.ip = "127.0.0." ++ natToStr i) :=
  c6_loopback_fallback "Linux" envAllDead scanIndices (fun _ => true) 0
    (List.Perm.refl scanIndices) SchedulerOutcome.ok (Or.inl rfl)

/-- Counterexample to C7: with two alive devices and a persistence sink
that throws on every call, only the first alive device's save is ever
attempted — the `for` loop sits inside a single `try`, so the first
failure aborts the remaining saves. The report is still returned intact,
but the coordinator does not attempt to persist each alive device. -/
theorem c7_counterexample :
    scan_network (some "10.0.0.5") "Linux" envTwoAlive SchedulerOutcome.ok
        scanIndices (fun _ => false) 0 =
      some (Except.ok
        (⟨"10.0.0.5", [⟨"10.0.0.1", "alive"⟩, ⟨"10.0.0.2", "alive"⟩], 0⟩,
         ["10.0.0.1"])) := by
  rw [scan_network_ok (some "10.0.0.5") "Linux" envTwoAlive (fun _ => false) 0
    (List.Perm.refl scanIndices) SchedulerOutcome.ok (Or.inl rfl)]
  decide

/-- Amended C7: persistence is attempted sequentially and stops at the
first sink failure, but sink behaviour never affects the returned report —
two scans differing only in their sink produce the identical report with
no exception — and every attempted address belongs to an alive device. -/
theorem c7_sink_never_affects_report (resolved : Option String) (plat : String)
    (env : ProbeEnv) (schedule : List Nat) (sink1 sink2 : String → Bool)
    (now : Nat) (hp : schedule.Perm scanIndices) :
    ∃ r a1 a2,
      scan_network resolved plat env SchedulerOutcome.ok schedule sink1 now =
        some (Except.ok (r, a1)) ∧
      scan_network resolved plat env SchedulerOutcome.ok schedule sink2 now =
        some (Except.ok (r, a2)) ∧
      (∀ addr ∈ a1, addr ∈ r.devices.map Device.ip) ∧
      (∀ addr ∈ a2, addr ∈ r.devices.map Device.ip) := by
  refine ⟨_, _, _,
    scan_network_ok resolved plat env sink1 now hp _ (Or.inl rfl),
    scan_network_ok resolved plat env sink2 now hp _ (Or.inl rfl),
    ?_, ?_⟩
  · exact saveLoop_subset_ips sink1 _
  · exact saveLoop_subset_ips sink2 _

/-- Witness for C7 (amended): always-failing sink versus always-succeeding
sink at a concrete input. -/
theorem c7_sink_never_affects_report_witness :
    ∃ r a1 a2,
      scan_network (some "10.0.0.5") "Linux" envTwoAlive SchedulerOutcome.ok
          scanIndices (fun _ => false) 0 =
        some (Except.ok (r, a1)) ∧
      scan_network (some "10.0.0.5") "Linux" envTwoAlive SchedulerOutcome.ok
          scanIndices (fun _ => true) 0 =
        some (Except.ok (r, a2)) ∧
      (∀ addr ∈ a1, addr ∈ r.devices.map Device.ip) ∧
      (∀ addr ∈ a2, addr ∈ r.devices.map Device.ip) :=
  c7_sink_never_affects_report (some "10.0.0.5") "Linux" envTwoAlive scanIndices
    (fun _ => false) (fun _ => true) 0 (List.Perm.refl scanIndices)

/-- Claim C9: every returned report's devices sequence has at most 254
entries, pairwise-distinct addresses, and every address is a candidate of
the derived /24 base subnet with last octet between 1 and 254. -/
theorem c9_report_invariants (resolved : Option String) (plat : String)
    (env : ProbeEnv) (sched : SchedulerOutcome) (schedule : List Nat)
    (sinkOk : String → Bool) (now : Nat) (r : ScanReport)
    (attempts : List String) (hp : schedule.Perm scanIndices)
    (h : scan_network resolved plat env sched schedule sinkOk now =
      some (Except.ok (r, attempts))) :
    r.devices.length ≤ 254 ∧
    (r.devices.map Device.ip).Nodup ∧
    (∀ d ∈ r.devices, ∃ i, 1 ≤ i ∧ i ≤ 254 ∧
      d.ip = deriveBase (resolved.getD "127.0.0.1") ++ natToStr i ∧
      d.status = "alive") := by
  have hdev : r.devices =
      devicesOf (deriveBase (resolved.getD "127.0.0.1")) (probeParam plat) env := by
    cases sched with
    | failure msg =>
      rw [scan_network] at h
      simp at h
    | ok =>
      rw [scan_network_ok resolved plat env sinkOk now hp _ (Or.inl rfl)] at h
      simp only [Option.some.injEq, Except.ok.injEq, Prod.mk.injEq] at h
      rw [← h.1]
    | fallbackOk =>
      rw [scan_network_ok resolved plat env sinkOk now hp _ (Or.inr rfl)] at h
      simp only [Option.some.injEq, Except.ok.injEq, Prod.mk.injEq] at h
      rw [← h.1]
  rw [hdev]
  exact ⟨devicesOf_length_le _ _ _, devicesOf_ip_nodup _ _ _, devicesOf_shape _ _ _⟩

/-- Witness for C9 at a concrete all-dead scan. -/
theorem c9_report_invariants_witness :
    (⟨"192.168.1.10", [], 0⟩ : ScanReport).devices.length ≤ 254 ∧
    ((⟨"192.168.1.10", [], 0⟩ : ScanReport).devices.map Device.ip).Nodup ∧
    (∀ d ∈ (⟨"192.168.1.10", [], 0⟩ : ScanReport).devices, ∃ i, 1 ≤ i ∧ i ≤ 254 ∧
      d.ip = deriveBase ((some "192.168.1.10").getD "127.0.0.1") ++ natToStr i ∧
      d.status = "alive") :=
  c9_report_invariants (some "192.168.1.10") "Linux" envAllDead
    SchedulerOutcome.ok scanIndices (fun _ => true) 0 ⟨"192.168.1.10", [], 0⟩ []
    (List.Perm.refl scanIndices)
    (by
      rw [scan_network_ok (some "192.168.1.10") "Linux" envAllDead (fun _ => true) 0
        (List.Perm.refl scanIndices) SchedulerOutcome.ok (Or.inl rfl)]
      decide)

end NetScan
